import Mathlib

/-!
Shallow embedding of the go-gandalfclient HTTP client library.

The program under study is the current `client.go` of the repository
(the version with context support, `GitTime`, `GetLog`, `GetDiff`):
`Client`, `doRequest`, `formatBody`, the verb helpers `post`, `put`,
`delete`, `get`, and the public operations built on them.  Two older
snapshots of the same file also ship with the sources; the historical
`get`/`delete` helpers that read `response.StatusCode` before checking
the error from `doRequest` are embedded separately as `getOld` and
`deleteOld`.

The Go standard library pieces the client calls are modelled as explicit
parameters or small faithful functions:
  - the HTTP transport (`http.Client.Do`) is a parameter
    `send : Transport` mapping the built request to either a response or
    a transport-level failure;
  - `json.Marshal` of a caller value is carried inside the `GoValue`
    argument (a Go `interface` value is nil, a string, or some other
    value together with its marshalling outcome);
  - `json.Unmarshal` into a result value is a parameter `decode`
    returning the (possibly partially filled) value and an optional
    error message;
  - `time.Parse` is a pair of parameters, one per textual time format.

Reading the response body (`ioutil.ReadAll`) is modelled as returning
the response body text; the `http.NewRequest` failure branch
("invalid Gandalf endpoint", reachable only with a malformed URL) is
outside the model, which assumes the endpoint forms a valid URL.
-/

namespace Gandalf

/-- A client configured with a base endpoint URL (struct `Client`).
The `http.Client` transport handle is passed separately as a function. -/
structure Client where
  Endpoint : String
deriving DecidableEq, Repr

/-- An HTTP request as `doRequest` builds it: method, full URL, the
optional `Content-Type` header, and the optional body text. -/
structure Request where
  method : String
  url : String
  contentType : Option String
  body : Option String
deriving DecidableEq, Repr

/-- An HTTP response: status code and body text. -/
structure Response where
  statusCode : Nat
  body : String
deriving DecidableEq, Repr

/-- Outcome of the transport call `client.Do(request)`: a response, or a
transport-level connection failure with an error message. -/
inductive TransportResult where
  | ok (r : Response)
  | connErr (msg : String)
deriving DecidableEq, Repr

/-- The transport: what `client.Do` returns for each request. -/
def Transport : Type := Request → TransportResult

/-- The errors the client surfaces, tagged by where they arise.
`httpErr` is the struct `HTTPError` with fields `Code` and `Reason`;
`connFailure` is the connection-failure error from `doRequest`;
`marshalErr` is a `json.Marshal` error returned by `formatBody`;
`jsonErr` is a `json.Unmarshal` error returned unwrapped;
`wrapped` is an error built with `fmt.Errorf` around another message. -/
inductive GErr where
  | connFailure (msg : String)
  | httpErr (code : Nat) (reason : String)
  | marshalErr (msg : String)
  | jsonErr (msg : String)
  | wrapped (msg : String)
deriving DecidableEq, Repr

/-- The `Error()` string of each error.  `HTTPError.Error` returns the
`Reason` field; every other error carries its message directly. -/
def GErr.message : GErr → String
  | .connFailure m => m
  | .httpErr _ r => r
  | .marshalErr m => m
  | .jsonErr m => m
  | .wrapped m => m

/-- `strings.TrimRight(s, "/")`: remove every trailing slash. -/
def trimRightSlash (s : String) : String :=
  String.mk ((s.data.reverse.dropWhile (fun c => c = '/')).reverse)

/-- The connection-failure message of `doRequest`:
`fmt.Errorf("Failed to connect to Gandalf server (%s) - %s", c.Endpoint, err)`. -/
def connMsg (c : Client) (errText : String) : String :=
  "Failed to connect to Gandalf server (" ++ c.Endpoint ++ ") - " ++ errText

/-- The request `doRequest` constructs: the URL is the endpoint with
trailing slashes trimmed followed by the path, and the `Content-Type`
header is `application/json` exactly when a body is present. -/
def buildRequest (c : Client) (method path : String) (body : Option String) : Request :=
  { method := method
    url := trimRightSlash c.Endpoint ++ path
    contentType := if body.isSome then some "application/json" else none
    body := body }

/-- `doRequest`: build the request and execute it; a transport failure
becomes a connection-failure error, and a received response is returned
untouched, whatever its status code. -/
def doRequest (send : Transport) (c : Client) (method path : String)
    (body : Option String) : Except GErr Response :=
  match send (buildRequest c method path body) with
  | .ok r => .ok r
  | .connErr m => .error (.connFailure (connMsg c m))

/-- A Go `interface` value passed as a request body: nil, a string, or
any other value together with the outcome `json.Marshal` has on it. -/
inductive GoValue where
  | goNil
  | goStr (s : String)
  | goObj (marshal : Except String String)
deriving Repr

/-- `formatBody`: a string is sent verbatim, nil becomes the literal
body `null`, anything else is marshalled to JSON, and a marshalling
failure is returned as an error with no body. -/
def formatBody : GoValue → Except GErr String
  | .goStr s => .ok s
  | .goNil => .ok "null"
  | .goObj (.ok j) => .ok j
  | .goObj (.error e) => .error (.marshalErr e)

/-- The status-code policy each verb helper repeats: a non-200 status
yields `HTTPError` with the status code and the body text as reason. -/
def statusCheck (r : Response) : Option GErr :=
  if r.statusCode ≠ 200 then some (.httpErr r.statusCode r.body) else none

/-- `post`: format the body, issue POST, apply the status policy. -/
def post (send : Transport) (c : Client) (b : GoValue) (path : String) : Option GErr :=
  match formatBody b with
  | .error e => some e
  | .ok body =>
    match doRequest send c "POST" path (some body) with
    | .error e => some e
    | .ok r => statusCheck r

/-- `put`: the body is already a string (`strings.NewReader(b)`);
issue PUT and apply the status policy. -/
def put (send : Transport) (c : Client) (b path : String) : Option GErr :=
  match doRequest send c "PUT" path (some b) with
  | .error e => some e
  | .ok r => statusCheck r

/-- `delete`: format the body, issue DELETE, apply the status policy
(the final `return err` returns the nil error from `doRequest`). -/
def delete (send : Transport) (c : Client) (b : GoValue) (path : String) : Option GErr :=
  match formatBody b with
  | .error e => some e
  | .ok body =>
    match doRequest send c "DELETE" path (some body) with
    | .error e => some e
    | .ok r => statusCheck r

/-- `get`: issue GET with no body; a `doRequest` failure is wrapped as
`HTTPError` with code 500 and the failure text as reason; a non-200
status yields `HTTPError` with the status and body; on 200 the raw
body bytes are returned. -/
def get (send : Transport) (c : Client) (path : String) : Except GErr String :=
  match doRequest send c "GET" path none with
  | .error e => .error (.httpErr 500 e.message)
  | .ok r =>
    if r.statusCode ≠ 200 then .error (.httpErr r.statusCode r.body)
    else .ok r.body

/-! JSON serialization, as `encoding/json` renders the values this
client marshals: strings are quoted with the standard escapes (Go also
escapes `<`, `>` and `&` by default), string slices become arrays, and
map keys are emitted in sorted key order. -/

/-- One character of a JSON string, escaped as Go `encoding/json`
escapes it. -/
def jsonEscapeChar (c : Char) : String :=
  if c = '"' then "\\\""
  else if c = '\\' then "\\\\"
  else if c = '<' then "\\u003c"
  else if c = '>' then "\\u003e"
  else if c = '&' then "\\u0026"
  else if c = '\n' then "\\n"
  else if c = '\r' then "\\r"
  else if c = '\t' then "\\t"
  else String.singleton c

/-- A JSON string literal. -/
def jsonQuote (s : String) : String :=
  "\"" ++ String.join (s.data.map jsonEscapeChar) ++ "\""

/-- A JSON array of strings, in the order given. -/
def jsonStringArray (xs : List String) : String :=
  "[" ++ String.intercalate "," (xs.map jsonQuote) ++ "]"

/-- A JSON object from string keys to string values.  Go marshals map
keys in sorted order; the association list is taken already sorted. -/
def jsonStringMap (kvs : List (String × String)) : String :=
  "\x7b" ++ String.intercalate "," (kvs.map (fun kv => jsonQuote kv.1 ++ ":" ++ jsonQuote kv.2)) ++ "\x7d"

/-- `json.Marshal` of the map `repositories`/`users` built by
`GrantAccess` and `RevokeAccess`.  Go emits map keys in sorted order and
`repositories` sorts before `users`; each slice keeps the caller's
order. -/
def accessBody (rNames uNames : List String) : String :=
  "\x7b\"repositories\":" ++ jsonStringArray rNames ++ ",\"users\":" ++ jsonStringArray uNames ++ "\x7d"

/-- `json.Marshal` of the `repository` struct as `NewRepository` builds
it: the `ssh_url`/`git_url` fields are empty and `omitempty` drops
them. -/
def repoJson (name : String) (users : List String) (isPublic : Bool) : String :=
  "\x7b\"name\":" ++ jsonQuote name ++ ",\"users\":" ++ jsonStringArray users ++
    ",\"ispublic\":" ++ (if isPublic then "true" else "false") ++ "\x7d"

/-- `json.Marshal` of the `user` struct as `NewUser` builds it. -/
def userJson (name : String) (keys : List (String × String)) : String :=
  "\x7b\"name\":" ++ jsonQuote name ++ ",\"keys\":" ++ jsonStringMap keys ++ "\x7d"

/-! Query-string encoding, as Go `net/url` renders the values `GetLog`
sets: `url.Values.Encode` emits `key=escapedValue` pairs joined by `&`
with the keys in sorted order, and `QueryEscape` keeps alphanumerics
and `-_.~`, turns a space into `+`, and percent-encodes every other
byte in upper-case hex. -/

/-- An upper-case hex digit. -/
def hexDigit (n : Nat) : Char :=
  if n < 10 then Char.ofNat (48 + n) else Char.ofNat (55 + n)

/-- Percent-encoding of one byte. -/
def percentByte (b : Nat) : String :=
  String.mk ['%', hexDigit (b / 16), hexDigit (b % 16)]

/-- `url.QueryEscape` of one character (multi-byte characters are
percent-encoded byte by byte through their UTF-8 form). -/
def queryEscapeChar (c : Char) : String :=
  if c.isAlphanum ∨ c = '-' ∨ c = '_' ∨ c = '.' ∨ c = '~' then String.singleton c
  else if c = ' ' then "+"
  else String.join (((String.singleton c).toUTF8.toList).map (fun b => percentByte b.toNat))

/-- `url.QueryEscape` of a string. -/
def queryEscape (s : String) : String :=
  String.join (s.data.map queryEscapeChar)

/-- `url.Values.Encode`: sorted `key=value` pairs joined by `&`. -/
def encodeQuery (ps : List (String × String)) : String :=
  String.intercalate "&" (ps.map (fun p => p.1 ++ "=" ++ queryEscape p.2))

/-- The query parameters `GetLog` sets, in the sorted key order
`Encode` uses (`path` before `ref` before `total`): `ref` always,
`path` only when non-empty, `total` only when positive. -/
def logParams (ref path : String) (total : Int) : List (String × String) :=
  (if path ≠ "" then [("path", path)] else []) ++
    [("ref", ref)] ++
    (if 0 < total then [("total", toString total)] else [])

/-- The path-with-query `GetLog` requests. -/
def getLogURL (repo ref path : String) (total : Int) : String :=
  "/repository/" ++ repo ++ "/logs?" ++ encodeQuery (logParams ref path total)

/-! The public operations, each a one-line composition of path
formatting, a verb helper and optional response decoding. -/

/-- The `repository` transfer object. -/
structure Repo where
  name : String
  users : List String
  isPublic : Bool
  sshURL : String
  gitURL : String
deriving DecidableEq, Repr

/-- The zero `repository` value, `repository{}`. -/
def Repo.zero : Repo :=
  { name := "", users := [], isPublic := false, sshURL := "", gitURL := "" }

/-- `NewRepository`: POST the repository to `/repository`; on success
return the value that was sent. -/
def NewRepository (send : Transport) (c : Client) (name : String) (users : List String)
    (isPublic : Bool) : Except GErr Repo :=
  match post send c (.goObj (.ok (repoJson name users isPublic))) "/repository" with
  | some e => .error e
  | none => .ok { name := name, users := users, isPublic := isPublic, sshURL := "", gitURL := "" }

/-- `GetRepository`: GET the repository metadata and decode it.  The
`decode` parameter is `json.Unmarshal` into a `repository` value,
returning the partially filled value and an optional error message.  A
decode failure discards the partial value: the zero repository comes
back with a wrapped error. -/
def GetRepository (send : Transport) (decode : String → Repo × Option String)
    (c : Client) (name : String) : Repo × Option GErr :=
  match get send c ("/repository/" ++ name ++ "?:name=" ++ name) with
  | .error e => (Repo.zero, some e)
  | .ok b =>
    match decode b with
    | (r, none) => (r, none)
    | (_, some e) => (Repo.zero, some (.wrapped ("Caught error decoding returned json: " ++ e)))

/-- `NewUser`: POST the user to `/user`. -/
def NewUser (send : Transport) (c : Client) (name : String)
    (keys : List (String × String)) : Option GErr :=
  post send c (.goObj (.ok (userJson name keys))) "/user"

/-- `RemoveUser`: DELETE `/user/name` with a nil body. -/
def RemoveUser (send : Transport) (c : Client) (name : String) : Option GErr :=
  delete send c .goNil ("/user/" ++ name)

/-- `RemoveRepository`: DELETE `/repository/name` with a nil body. -/
def RemoveRepository (send : Transport) (c : Client) (name : String) : Option GErr :=
  delete send c .goNil ("/repository/" ++ name)

/-- `GrantAccess`: POST the repositories/users map to
`/repository/grant`. -/
def GrantAccess (send : Transport) (c : Client) (rNames uNames : List String) : Option GErr :=
  post send c (.goObj (.ok (accessBody rNames uNames))) "/repository/grant"

/-- `RevokeAccess`: DELETE the repositories/users map at
`/repository/revoke`. -/
def RevokeAccess (send : Transport) (c : Client) (rNames uNames : List String) : Option GErr :=
  delete send c (.goObj (.ok (accessBody rNames uNames))) "/repository/revoke"

/-- `AddKey`: POST the key map to `/user/uName/key`. -/
def AddKey (send : Transport) (c : Client) (uName : String)
    (key : List (String × String)) : Option GErr :=
  post send c (.goObj (.ok (jsonStringMap key))) ("/user/" ++ uName ++ "/key")

/-- `UpdateKey`: PUT the raw key body at `/user/uName/key/kName`. -/
def UpdateKey (send : Transport) (c : Client) (uName kName kBody : String) : Option GErr :=
  put send c kBody ("/user/" ++ uName ++ "/key/" ++ kName)

/-- `RemoveKey`: DELETE `/user/uName/key/kName` with a nil body. -/
def RemoveKey (send : Transport) (c : Client) (uName kName : String) : Option GErr :=
  delete send c .goNil ("/user/" ++ uName ++ "/key/" ++ kName)

/-- `ListKeys`: GET `/user/uName/keys` and decode the key map.  The
`decode` parameter is `json.Unmarshal` into the fresh map, returning
the (possibly partially filled) map and an optional error; both are
returned to the caller unchanged.  On a `get` failure the map is nil. -/
def ListKeys {κ : Type} (send : Transport) (decode : String → κ × Option String)
    (c : Client) (uName : String) : Option κ × Option GErr :=
  match get send c ("/user/" ++ uName ++ "/keys") with
  | .error e => (none, some e)
  | .ok b =>
    match decode b with
    | (keys, derr) => (some keys, derr.map .jsonErr)

/-- `GetDiff`: GET the diff output; a `get` failure is wrapped with the
prefix `Caught error getting repository metadata:`. -/
def GetDiff (send : Transport) (c : Client) (repo previousCommit lastCommit : String) :
    Except GErr String :=
  match get send c ("/repository/" ++ repo ++ "/diff/commits?:name=" ++ repo ++
      "&previous_commit=" ++ previousCommit ++ "&last_commit=" ++ lastCommit) with
  | .error e => .error (.wrapped ("Caught error getting repository metadata: " ++ e.message))
  | .ok b => .ok b

/-- `GetLog`: GET the commit log and decode it.  `L` is the `Log` type
and `ret0` its zero value `var ret Log`; `decode` is `json.Unmarshal`
into it.  A `get` failure is wrapped with the prefix
`Caught error getting repository log:`; a decode outcome is returned
with the (possibly partially filled) value unchanged. -/
def GetLog {L : Type} (send : Transport) (decode : String → L × Option String) (ret0 : L)
    (c : Client) (repo ref path : String) (total : Int) : L × Option GErr :=
  match get send c (getLogURL repo ref path total) with
  | .error e => (ret0, some (.wrapped ("Caught error getting repository log: " ++ e.message)))
  | .ok b =>
    match decode b with
    | (ret, derr) => (ret, derr.map .jsonErr)

/-- `GetHealthCheck`: GET `/healthcheck`; a `get` failure is re-wrapped
as `HTTPError` with code 500 and the failure text as reason. -/
def GetHealthCheck (send : Transport) (c : Client) : Except GErr String :=
  match get send c "/healthcheck" with
  | .error e => .error (.httpErr 500 e.message)
  | .ok b => .ok b

/-- `GitTime.UnmarshalJSON`.  `α` is `time.Time`; `cur` is the value
the receiver holds on entry; `parseGitFmt` and `parseRFC3339` are
`time.Parse` against the quoted `GitTimeFormat` and quoted RFC 3339
layouts.  The raw bytes of an empty JSON string or of `null` leave the
receiver untouched with no error; otherwise the git layout is tried
first and the RFC 3339 layout only on its failure, and the second parse
error is returned when both fail. -/
def gitTimeUnmarshal {α : Type} (parseGitFmt parseRFC3339 : String → Except String α)
    (cur : α) (raw : String) : Except String α :=
  if raw = "\"\"" ∨ raw = "null" then .ok cur
  else
    match parseGitFmt raw with
    | .ok t => .ok t
    | .error _ =>
      match parseRFC3339 raw with
      | .ok t => .ok t
      | .error e => .error e

/-! The older snapshots of the client that also ship with the sources.
Their `doRequest` returns a nil response together with the error when
the transport call fails, and their `get` (first snapshot) and `delete`
(second snapshot) read `response.StatusCode` before inspecting that
error.  Reading a field of a nil response is a nil-pointer dereference,
a Go runtime panic, modelled as the distinguished outcome `panicked`. -/

/-- Outcome of running one of the older helpers: a normal return value,
or a runtime panic from dereferencing a nil response. -/
inductive GoOutcome (β : Type) where
  | panicked
  | returned (val : β)
deriving DecidableEq, Repr

/-- The older `doRequest`: no trailing-slash trimming, and a transport
failure yields a nil response paired with the fixed connection-failure
message. -/
def doRequestOld (send : Transport) (c : Client) (method path : String)
    (body : Option String) : Option Response × Option String :=
  match send { method := method
               url := c.Endpoint ++ path
               contentType := if body.isSome then some "application/json" else none
               body := body } with
  | .ok r => (some r, none)
  | .connErr _ => (none, some "Failed to connect to Gandalf server, it's probably down.")

/-- The older `get`: it reads `response.StatusCode` without first
checking the error from `doRequest`, so a nil response is dereferenced
(the trailing `return err` would surface the error only on a 200
response). -/
def getOld (send : Transport) (c : Client) (path : String) : GoOutcome (Option GErr) :=
  match doRequestOld send c "GET" path none with
  | (none, _) => .panicked
  | (some r, e) =>
    if r.statusCode ≠ 200 then .returned (some (.httpErr r.statusCode r.body))
    else .returned (e.map .connFailure)

/-- The older `delete` (second snapshot): same shape as the older
`get`, with the non-200 error built by `fmt.Errorf`. -/
def deleteOld (send : Transport) (c : Client) (path : String) : GoOutcome (Option GErr) :=
  match doRequestOld send c "DELETE" path none with
  | (none, _) => .panicked
  | (some r, e) =>
    if r.statusCode ≠ 200 then
      .returned (some (.wrapped ("Got error while performing request. Code: " ++
        toString r.statusCode ++ " - Message: " ++ r.body)))
    else .returned (e.map .connFailure)

/-! Helper lemmas shared by the claim theorems. -/

/-- Appending `String.mk` values concatenates the character lists. -/
lemma str_mk_append (a b : List Char) : String.mk a ++ String.mk b = String.mk (a ++ b) := rfl

/-- Dropping leading slashes past a block of slashes. -/
lemma dropWhile_slash_replicate (n : Nat) (l : List Char) :
    (List.replicate n '/' ++ l).dropWhile (fun c => c = '/') =
      l.dropWhile (fun c => c = '/') := by
  induction n with
  | zero => rfl
  | succ n ih =>
    rw [List.replicate_succ, List.cons_append, List.dropWhile_cons_of_pos (by decide)]
    exact ih

/-- Trailing slashes appended to an endpoint are trimmed away. -/
lemma trimRightSlash_append_slashes (e : String) (n : Nat) :
    trimRightSlash (e ++ String.mk (List.replicate n '/')) = trimRightSlash e := by
  cases e with
  | mk l =>
    rw [str_mk_append]
    simp only [trimRightSlash, List.reverse_append, List.reverse_replicate]
    rw [dropWhile_slash_replicate]

/-- C1: for every HTTP response a verb helper receives, exactly status
200 counts as success: on 200, `post`, `put` and `delete` return no
error and `get` returns the raw body; on any other status, each helper
returns an `HTTPError` whose code is the response status, whose reason
is the response body verbatim, and whose error message equals that
body. -/
theorem c1_verb_helpers_success_iff_200 (send : Transport) (c : Client) (b : GoValue)
    (bd path : String) (r : Response)
    (hb : formatBody b = .ok bd) (hsend : ∀ q, send q = .ok r) :
    post send c b path =
      (if r.statusCode = 200 then none else some (.httpErr r.statusCode r.body))
  ∧ put send c bd path =
      (if r.statusCode = 200 then none else some (.httpErr r.statusCode r.body))
  ∧ delete send c b path =
      (if r.statusCode = 200 then none else some (.httpErr r.statusCode r.body))
  ∧ get send c path =
      (if r.statusCode = 200 then .ok r.body else .error (.httpErr r.statusCode r.body))
  ∧ (GErr.httpErr r.statusCode r.body).message = r.body := by
  refine ⟨?_, ?_, ?_, ?_, rfl⟩ <;>
    by_cases h : r.statusCode = 200 <;>
      simp [post, put, delete, get, doRequest, statusCheck, hb, hsend, h]

/-- C1 witness: a 201 response with body `oops` makes every helper fail
with an `HTTPError` carrying 201 and `oops`. -/
theorem c1_witness :
    post (fun _ => .ok ⟨201, "oops"⟩) ⟨"http://h"⟩ .goNil "/p" = some (.httpErr 201 "oops")
  ∧ get (fun _ => .ok ⟨201, "oops"⟩) ⟨"http://h"⟩ "/p" = .error (.httpErr 201 "oops") := by
  have h := c1_verb_helpers_success_iff_200 (fun _ => .ok ⟨201, "oops"⟩) ⟨"http://h"⟩
    .goNil "null" "/p" ⟨201, "oops"⟩ rfl (fun _ => rfl)
  exact ⟨by simpa using h.1, by simpa using h.2.2.2.1⟩

/-- C2: the claim says no operation ever panics on a transport failure
and that the `get` helper never dereferences a nil response.  The
current `get` indeed surfaces an error, but the older snapshot's `get`
and `delete` read `response.StatusCode` while the response is nil: on
an unreachable endpoint they hit a nil-pointer dereference (runtime
panic) instead of returning an error. -/
theorem c2_old_get_delete_dereference_nil_response :
    getOld (fun _ => .connErr "dial tcp: connection refused")
      ⟨"http://localhost:747399"⟩ "/user/someuser" = .panicked
  ∧ deleteOld (fun _ => .connErr "dial tcp: connection refused")
      ⟨"http://localhost:747399"⟩ "/users/something" = .panicked
  ∧ get (fun _ => .connErr "dial tcp: connection refused")
      ⟨"http://localhost:747399"⟩ "/user/someuser" =
      .error (.httpErr 500 (connMsg ⟨"http://localhost:747399"⟩ "dial tcp: connection refused")) :=
  ⟨rfl, rfl, rfl⟩

/-- C3: `formatBody` sends a string verbatim, turns an absent value
into the literal body `null`, otherwise emits the JSON serialization,
and returns a serialization error with no body exactly when the value
cannot be encoded. -/
theorem c3_formatBody_spec :
    (∀ s, formatBody (.goStr s) = .ok s)
  ∧ formatBody .goNil = .ok "null"
  ∧ (∀ j, formatBody (.goObj (.ok j)) = .ok j)
  ∧ (∀ e, formatBody (.goObj (.error e)) = .error (.marshalErr e))
  ∧ (∀ b, (∃ e, formatBody b = .error e) ↔ ∃ m, b = .goObj (.error m)) := by
  refine ⟨fun s => rfl, rfl, fun j => rfl, fun e => rfl, fun b => ?_⟩
  cases b with
  | goNil => simp [formatBody]
  | goStr s => simp [formatBody]
  | goObj m => cases m <;> simp [formatBody]

/-- C3 witness: concrete instances of each branch of `formatBody`. -/
theorem c3_witness :
    formatBody (.goStr "raw text") = .ok "raw text"
  ∧ formatBody .goNil = .ok "null"
  ∧ formatBody (.goObj (.error "Unmarshable.")) = .error (.marshalErr "Unmarshable.") :=
  ⟨c3_formatBody_spec.1 "raw text", c3_formatBody_spec.2.1,
    c3_formatBody_spec.2.2.2.1 "Unmarshable."⟩

/-- C4 counterexample: the claim says every operation, `GetDiff` and
`GetLog` included, surfaces a non-200 body as an error message equal to
that body.  On a 400 response whose body is
`Error performing requested operation` followed by a newline, `GetDiff`
returns an error whose message carries the prefix
`Caught error getting repository metadata: `, which differs from the
body text. -/
theorem c4_counterexample :
    GetDiff (fun _ => .ok ⟨400, "Error performing requested operation\n"⟩)
      ⟨"http://h"⟩ "repo-name" "prev" "last" =
      .error (.wrapped
        "Caught error getting repository metadata: Error performing requested operation\n")
  ∧ (GErr.wrapped
      "Caught error getting repository metadata: Error performing requested operation\n").message ≠
      "Error performing requested operation\n" :=
  ⟨rfl, by decide⟩

/-- C4 amended: on a non-200 response, operations that surface the verb
helper's error unchanged (`NewRepository`, `GetRepository`, `ListKeys`)
yield an error whose message equals the body text verbatim, and
`GetHealthCheck` re-wraps it with the same message; `GetDiff` and
`GetLog` instead prefix the body with
`Caught error getting repository metadata: ` respectively
`Caught error getting repository log: `. -/
theorem c4_amended_error_messages (send : Transport) (c : Client) (r : Response)
    {κ L : Type} (decK : String → κ × Option String) (decR : Repo × Option String)
    (decL : String → L × Option String) (ret0 : L)
    (name uName repo prev last ref path : String) (users : List String)
    (isPublic : Bool) (total : Int)
    (hsend : ∀ q, send q = .ok r) (hcode : r.statusCode ≠ 200) :
    NewRepository send c name users isPublic = .error (.httpErr r.statusCode r.body)
  ∧ GetRepository send (fun _ => decR) c name = (Repo.zero, some (.httpErr r.statusCode r.body))
  ∧ ListKeys send decK c uName = (none, some (.httpErr r.statusCode r.body))
  ∧ GetHealthCheck send c = .error (.httpErr 500 r.body)
  ∧ GetDiff send c repo prev last =
      .error (.wrapped ("Caught error getting repository metadata: " ++ r.body))
  ∧ GetLog send decL ret0 c repo ref path total =
      (ret0, some (.wrapped ("Caught error getting repository log: " ++ r.body)))
  ∧ (GErr.httpErr r.statusCode r.body).message = r.body := by
  refine ⟨?_, ?_, ?_, ?_, ?_, ?_, rfl⟩ <;>
    simp [NewRepository, GetRepository, ListKeys, GetHealthCheck, GetDiff, GetLog,
      post, get, doRequest, statusCheck, formatBody, hsend, hcode, GErr.message]

/-- C4 amended witness: the error-handler body of the tests, on a 400,
surfaces verbatim from `GetRepository` and prefixed from `GetDiff`. -/
theorem c4_witness :
    GetRepository (fun _ => .ok ⟨400, "Error performing requested operation\n"⟩)
      (fun _ => (Repo.zero, none)) ⟨"http://h"⟩ "repo-name" =
      (Repo.zero, some (.httpErr 400 "Error performing requested operation\n"))
  ∧ GetDiff (fun _ => .ok ⟨400, "Error performing requested operation\n"⟩)
      ⟨"http://h"⟩ "repo-name" "prev" "last" =
      .error (.wrapped
        "Caught error getting repository metadata: Error performing requested operation\n") := by
  have h := c4_amended_error_messages (fun _ => .ok ⟨400, "Error performing requested operation\n"⟩)
    ⟨"http://h"⟩ ⟨400, "Error performing requested operation\n"⟩
    (κ := Nat) (L := Nat) (fun _ => (0, none)) (Repo.zero, none) (fun _ => (0, none)) 0
    "repo-name" "u" "repo-name" "prev" "last" "ref" "" [] false 0
    (fun _ => rfl) (by decide)
  exact ⟨h.2.1, by simpa using h.2.2.2.2.1⟩

/-- C5: `doRequest` builds the URL from the (slash-trimmed) endpoint
followed by the path, sets `Content-Type: application/json` exactly
when a body is present and no `Content-Type` otherwise, and on a
transport failure returns the connection-failure error while a received
response is returned whatever its status code. -/
theorem c5_doRequest_contract (c : Client) (m path bd msg : String) (r : Response)
    (sendOk sendFail : Transport)
    (hok : ∀ q, sendOk q = .ok r) (hfail : ∀ q, sendFail q = .connErr msg) :
    (∀ ob : Option String, (buildRequest c m path ob).url = trimRightSlash c.Endpoint ++ path)
  ∧ (buildRequest c m path (some bd)).contentType = some "application/json"
  ∧ (buildRequest c m path none).contentType = none
  ∧ doRequest sendFail c m path (some bd) = .error (.connFailure (connMsg c msg))
  ∧ doRequest sendFail c m path none = .error (.connFailure (connMsg c msg))
  ∧ doRequest sendOk c m path (some bd) = .ok r
  ∧ doRequest sendOk c m path none = .ok r := by
  refine ⟨fun ob => rfl, rfl, rfl, ?_, ?_, ?_, ?_⟩ <;>
    simp [doRequest, hok, hfail]

/-- C5 witness: a concrete client against an always-failing and an
always-succeeding transport. -/
theorem c5_witness :
    (buildRequest ⟨"http://h"⟩ "GET" "/p" none).contentType = none
  ∧ doRequest (fun _ => .connErr "down") ⟨"http://h"⟩ "GET" "/p" (some "null") =
      .error (.connFailure (connMsg ⟨"http://h"⟩ "down"))
  ∧ doRequest (fun _ => .ok ⟨502, "bad gateway"⟩) ⟨"http://h"⟩ "GET" "/p" none =
      .ok ⟨502, "bad gateway"⟩ := by
  have h := c5_doRequest_contract ⟨"http://h"⟩ "GET" "/p" "null" "down" ⟨502, "bad gateway"⟩
    (fun _ => .ok ⟨502, "bad gateway"⟩) (fun _ => .connErr "down")
    (fun _ => rfl) (fun _ => rfl)
  exact ⟨h.2.2.1, h.2.2.2.1, h.2.2.2.2.2.2⟩

/-- C6: `GrantAccess` issues POST `/repository/grant` and
`RevokeAccess` issues DELETE `/repository/revoke`, each with body the
serialized repositories/users map in the caller's list order, and with
repositories `projectx`, `projecty` and user `userx` that body is the
exact JSON text of the test. -/
theorem c6_grant_revoke_access (send : Transport) (c : Client) (rNames uNames : List String) :
    GrantAccess send c rNames uNames =
      (match send (buildRequest c "POST" "/repository/grant" (some (accessBody rNames uNames))) with
       | .ok r => statusCheck r
       | .connErr m => some (.connFailure (connMsg c m)))
  ∧ RevokeAccess send c rNames uNames =
      (match send (buildRequest c "DELETE" "/repository/revoke" (some (accessBody rNames uNames))) with
       | .ok r => statusCheck r
       | .connErr m => some (.connFailure (connMsg c m)))
  ∧ accessBody ["projectx", "projecty"] ["userx"] =
      "\x7b\"repositories\":[\"projectx\",\"projecty\"],\"users\":[\"userx\"]\x7d" := by
  refine ⟨?_, ?_, by decide⟩ <;>
  · simp only [GrantAccess, RevokeAccess, post, delete, formatBody, doRequest]
    rcases send (buildRequest c _ _ (some (accessBody rNames uNames))) <;> rfl

/-- C7: `GetLog` issues GET on
`/repository/name/logs?...` whose query always contains the `ref`
parameter, contains `path` exactly when the given path is non-empty,
and contains `total` exactly when the given total is strictly
positive. -/
theorem c7_getLog_query (repo ref path : String) (total : Int) :
    getLogURL repo ref path total =
      "/repository/" ++ repo ++ "/logs?" ++ encodeQuery (logParams ref path total)
  ∧ ("ref", ref) ∈ logParams ref path total
  ∧ ((∃ v, ("path", v) ∈ logParams ref path total) ↔ path ≠ "")
  ∧ ((∃ v, ("total", v) ∈ logParams ref path total) ↔ 0 < total)
  ∧ (∀ {L : Type} (send : Transport) (decode : String → L × Option String) (ret0 : L)
       (c : Client),
       GetLog send decode ret0 c repo ref path total =
         (match get send c (getLogURL repo ref path total) with
          | .error e => (ret0, some (.wrapped ("Caught error getting repository log: " ++ e.message)))
          | .ok b => ((decode b).1, (decode b).2.map .jsonErr))) := by
  refine ⟨rfl, ?_, ?_, ?_, ?_⟩
  · by_cases hp : path = "" <;> by_cases ht : 0 < total <;> simp [logParams, hp, ht]
  · by_cases hp : path = "" <;> by_cases ht : 0 < total <;> simp [logParams, hp, ht]
  · by_cases hp : path = "" <;> by_cases ht : 0 < total <;> simp [logParams, hp, ht]
  · intro L send decode ret0 c
    simp only [GetLog]

/-- C7 witness: with a non-empty path and positive total both optional
parameters appear; with empty path and zero total neither does. -/
theorem c7_witness :
    ("ref", "master") ∈ logParams "master" "src" 5
  ∧ ((∃ v, ("path", v) ∈ logParams "master" "src" 5) ↔ ("src" : String) ≠ "")
  ∧ ((∃ v, ("total", v) ∈ logParams "master" "" 0) ↔ (0 : Int) < 0) :=
  ⟨(c7_getLog_query "repo" "master" "src" 5).2.1,
    (c7_getLog_query "repo" "master" "src" 5).2.2.1,
    (c7_getLog_query "repo" "master" "" 0).2.2.2.1⟩

/-- C8: `GitTime.UnmarshalJSON` leaves the receiver unchanged with no
error on the raw bytes of an empty JSON string or of `null`; otherwise
it tries the git fixed format first, falls back to RFC 3339 only when
that fails, succeeds when either parse succeeds, and errors exactly
when both fail. -/
theorem c8_gitTimeUnmarshal_spec {α : Type} (pG pR : String → Except String α)
    (cur : α) (raw : String) :
    (raw = "\"\"" ∨ raw = "null" → gitTimeUnmarshal pG pR cur raw = .ok cur)
  ∧ (raw ≠ "\"\"" → raw ≠ "null" →
      ∀ t, pG raw = .ok t → gitTimeUnmarshal pG pR cur raw = .ok t)
  ∧ (raw ≠ "\"\"" → raw ≠ "null" →
      ∀ e t, pG raw = .error e → pR raw = .ok t → gitTimeUnmarshal pG pR cur raw = .ok t)
  ∧ (raw ≠ "\"\"" → raw ≠ "null" →
      ∀ e eR, pG raw = .error e → pR raw = .error eR →
        gitTimeUnmarshal pG pR cur raw = .error eR) := by
  refine ⟨fun h => by simp [gitTimeUnmarshal, h], ?_, ?_, ?_⟩
  · intro h1 h2 t hG
    simp [gitTimeUnmarshal, h1, h2, hG]
  · intro h1 h2 e t hG hR
    simp [gitTimeUnmarshal, h1, h2, hG, hR]
  · intro h1 h2 e eR hG hR
    simp [gitTimeUnmarshal, h1, h2, hG, hR]

/-- C8 witness: the empty-string raw value keeps the receiver, a value
only RFC 3339 accepts is stored, and a value neither format accepts
returns the second parse error. -/
theorem c8_witness :
    gitTimeUnmarshal (α := Nat) (fun _ => .error "git format miss")
      (fun _ => .ok 7) 3 "\"\"" = .ok 3
  ∧ gitTimeUnmarshal (α := Nat) (fun _ => .error "git format miss")
      (fun _ => .ok 7) 3 "\"2015-03-10T19:42:26Z\"" = .ok 7
  ∧ gitTimeUnmarshal (α := Nat) (fun _ => .error "git format miss")
      (fun _ => .error "rfc miss") 3 "\"garbage\"" = .error "rfc miss" :=
  ⟨(c8_gitTimeUnmarshal_spec (fun _ => .error "git format miss") (fun _ => .ok 7) 3
      "\"\"").1 (Or.inl rfl),
    (c8_gitTimeUnmarshal_spec (fun _ => .error "git format miss") (fun _ => .ok 7) 3
      "\"2015-03-10T19:42:26Z\"").2.2.1 (by decide) (by decide) "git format miss" 7 rfl rfl,
    (c8_gitTimeUnmarshal_spec (fun _ => .error "git format miss") (fun _ => .error "rfc miss") 3
      "\"garbage\"").2.2.2 (by decide) (by decide) "git format miss" "rfc miss" rfl rfl⟩

/-- C9: trailing slashes on the configured endpoint are irrelevant: a
client whose endpoint is `e` followed by any number of slashes builds
exactly the same request as a client whose endpoint is `e`, for every
method, path and body. -/
theorem c9_trailing_slash_irrelevant (e m path : String) (body : Option String) (n : Nat) :
    buildRequest ⟨e ++ String.mk (List.replicate n '/')⟩ m path body =
      buildRequest ⟨e⟩ m path body := by
  simp [buildRequest, trimRightSlash_append_slashes e n]

/-- C10: on a 200 response whose body fails to decode, `ListKeys` and
`GetLog` return the decode error together with the (possibly partially
filled, non-reset) decoded value, while `GetRepository` discards the
partial value and returns the zero repository with an error prefixed
`Caught error decoding returned json`. -/
theorem c10_decode_error_behaviour (send : Transport) (c : Client) (r : Response)
    {κ L : Type} (k : κ) (lg : L) (ret0 : L) (rp : Repo) (e : String)
    (uName repo ref path name : String) (total : Int)
    (hsend : ∀ q, send q = .ok r) (h200 : r.statusCode = 200) :
    ListKeys send (fun _ => (k, some e)) c uName = (some k, some (.jsonErr e))
  ∧ GetLog send (fun _ => (lg, some e)) ret0 c repo ref path total = (lg, some (.jsonErr e))
  ∧ GetRepository send (fun _ => (rp, some e)) c name =
      (Repo.zero, some (.wrapped ("Caught error decoding returned json: " ++ e))) := by
  refine ⟨?_, ?_, ?_⟩ <;>
    simp [ListKeys, GetLog, GetRepository, get, doRequest, statusCheck, hsend, h200]

/-- C10 witness: a 200 response with an empty body, a decoder that
reports `unexpected end of JSON input` with a partial value: `ListKeys`
and `GetLog` keep the partial value, `GetRepository` resets it. -/
theorem c10_witness :
    ListKeys (fun _ => .ok ⟨200, ""⟩) (fun _ => ([("fookey", "bar")], some "unexpected end of JSON input"))
      ⟨"http://h"⟩ "userx" =
      (some [("fookey", "bar")], some (.jsonErr "unexpected end of JSON input"))
  ∧ GetRepository (fun _ => .ok ⟨200, ""⟩)
      (fun _ => ({ Repo.zero with name := "partial" }, some "unexpected end of JSON input"))
      ⟨"http://h"⟩ "repo-name" =
      (Repo.zero, some (.wrapped "Caught error decoding returned json: unexpected end of JSON input")) := by
  have h := c10_decode_error_behaviour (fun _ => .ok ⟨200, ""⟩) ⟨"http://h"⟩ ⟨200, ""⟩
    (κ := List (String × String)) (L := Nat) [("fookey", "bar")] 0 0
    { Repo.zero with name := "partial" } "unexpected end of JSON input"
    "userx" "repo" "ref" "" "repo-name" 0 (fun _ => rfl) rfl
  exact ⟨h.1, by simpa using h.2.2⟩

end Gandalf

